import Mathlib

/-!
Shallow embedding of the bookwith Memory & Retrieval Engine
(`apps/api/src/infrastructure/memory/` and its callers), with theorems
checking the natural-language specification against the code.

Conventions of the embedding:
* Python strings are Lean `String`; `"\n".join(xs)` is `joinSep "\n" xs`.
* Python integers are `Nat` where the source value is provably
  non-negative, `Int` where a subtraction can go negative
  (`remain_tokens` in the prompt builder); Python floor division `//`
  is `Nat./` resp. `Int.fdiv`.
* The Weaviate multi-tenant collection is a function from tenant id to
  the tenant's list of stored objects; `with_tenant(uid)` is application
  at `uid`.  Vector distance is an abstract parameter `dist`; floats, of
  no arithmetic consequence to the claims, are modelled as `Int`
  components and `Nat` distances.
* Remote calls that can raise are given a Boolean/`Option` outcome
  parameter; a Python `except` branch is the corresponding `if`/`match`
  branch.
-/

namespace BookWith

/-- Python `sep.join(parts)`. -/
def joinSep (sep : String) : List String → String
  | [] => ""
  | [x] => x
  | x :: y :: xs => x ++ sep ++ joinSep sep (y :: xs)

/-- Lexicographic order on code-point lists, as Python compares
strings and the vector store compares `created_at` text values. -/
def charListLe : List Char → List Char → Bool
  | [], _ => true
  | _ :: _, [] => false
  | a :: as, b :: bs =>
    if a.toNat < b.toNat then true
    else if b.toNat < a.toNat then false
    else charListLe as bs

/-- String comparison by code points (Python `a <= b`). -/
def strLe (a b : String) : Bool := charListLe a.data b.data

/-- Insert into a list sorted by the Boolean relation `le` (stable). -/
def insertLe (le : α → α → Bool) (x : α) : List α → List α
  | [] => [x]
  | y :: ys => if le x y && !le y x then x :: y :: ys else y :: insertLe le x ys

/-- Stable insertion sort by the Boolean relation `le`; models the
ranked order in which the vector store returns objects. -/
def sortLe (le : α → α → Bool) : List α → List α
  | [] => []
  | x :: xs => insertLe le x (sortLe le xs)

theorem mem_insertLe (le : α → α → Bool) (x : α) (l : List α) (a : α) :
    a ∈ insertLe le x l ↔ a = x ∨ a ∈ l := by
  induction l with
  | nil => simp [insertLe]
  | cons y ys ih =>
      simp only [insertLe]
      split
      · simp
      · simp [ih]
        tauto

theorem mem_sortLe (le : α → α → Bool) (l : List α) (a : α) :
    a ∈ sortLe le l ↔ a ∈ l := by
  induction l with
  | nil => simp [sortLe]
  | cons x xs ih => simp [sortLe, mem_insertLe, ih]

/-! ### Domain entity `Message` (`domain/message/entities/message.py`)

Only the fields the prompt builder reads are embedded: `content.value`
and `sender_type.value` are the underlying strings of their value
objects, `created_at` a totally ordered timestamp, and `is_deleted`
the property `deleted_at is not None`. -/

structure Message where
  content : String
  sender_type : String
  chat_id : String
  sender_id : String
  created_at : Nat
  deleted_at : Option Nat := none
deriving DecidableEq, Repr

def Message.is_deleted (m : Message) : Bool := m.deleted_at.isSome

/-! ### Prompt builder (`prompt_builder_service.py`)

The token estimator is embedded in its in-repository fallback form
(`len(text) // 4` and character-budget truncation); the tiktoken
branch delegates to an external library. -/

/-- Embeds `PromptBuilderService._estimate_tokens`, fallback branch. -/
def estimateTokens (text : String) : Nat := text.length / 4

theorem estimateTokens_eq (text : String) : estimateTokens text = text.length / 4 := rfl

/-- Embeds `PromptBuilderService._truncate_text_to_tokens`, fallback branch. -/
def truncateTextToTokens (text : String) (maxTokens : Nat) : String :=
  let maxChars := maxTokens * 4
  if text.length ≤ maxChars then text else (text.take maxChars) ++ "..."

/-- The fixed system instruction of `_create_memory_prompt`. -/
def systemPrompt : String :=
  "Please answer the question considering the user's profile information, past conversations, and recent chat history. Strive to provide consistent and personalized responses while utilizing the provided information."

/-- A retrieved chat-memory dict as consumed by `_create_memory_prompt`
and `MemoryRetrievalService.format_memory_item`.  `typ` is
`mem.get("type")` (absent on genuine search results), `content` is
`mem.get("content")`, `sender` is `mem.get("sender")`, and `certainty`
is the already-rendered `"%.2f"` relevance string when
`_additional.certainty` is present. -/
structure MemoryItem where
  content : Option String := none
  typ : Option String := none
  sender : Option String := none
  certainty : Option String := none
deriving DecidableEq, Repr

/-- Embeds `MemoryRetrievalService.format_memory_item`. -/
def formatMemoryItem (mem : MemoryItem) (pfx : String) : String :=
  let formatted := pfx ++ mem.content.getD "N/A"
  match mem.certainty with
  | none => formatted
  | some c => formatted ++ " (relevance: " ++ c ++ ")"

/-- The per-memory label built inline in `_create_memory_prompt`. -/
def memoryLabel (mem : MemoryItem) : String :=
  "[Past " ++ (if mem.typ == some "message" then "message" else "summary")
    ++ " by "
    ++ (if mem.sender == some "user" then "User"
        else if mem.sender == some "assistant" then "AI" else "System")
    ++ "]: "

/-- One line of the recent-chat-history block, as formatted by
`_create_memory_prompt`. -/
def messageLine (m : Message) : String :=
  (if m.sender_type == "user" then "User" else "AI") ++ ": " ++ m.content

/-- The `history_items` comprehension of `_create_memory_prompt`:
iterate the buffer reversed, drop deleted messages, format each line. -/
def historyItems (buffer : List Message) : List String :=
  (buffer.reverse.filter (fun m => !m.is_deleted)).map messageLine

/-- The heading of the recent-chat-history block. -/
def historyHeading : String := "\n--- Recent Chat History (Oldest First) ---\n"

/-- The heading of the retrieved-memories block. -/
def memoriesHeading : String := "\n--- Related Past Conversations ---\n"

/-- The trailing user-query suffix appended by `_create_memory_prompt`. -/
def querySuffix (userQuery : String) : String := "\nUser: " ++ userQuery ++ "\nAI:"

/-- The conditional middle blocks of `prompt_parts` (retrieved
memories, recent buffer), in composition order. -/
def middleBlocks (buffer : List Message) (chatMemories : List MemoryItem) :
    List String :=
  (if chatMemories.isEmpty then []
    else [memoriesHeading ++
      joinSep "\n" (chatMemories.map (fun mem => formatMemoryItem mem (memoryLabel mem)))])
    ++ (if buffer.isEmpty then []
        else [historyHeading ++ joinSep "\n" (historyItems buffer)])

/-- The `prompt_parts` list assembled by `_create_memory_prompt`. -/
def promptParts (buffer : List Message) (chatMemories : List MemoryItem)
    (userQuery : String) : List String :=
  [systemPrompt] ++ middleBlocks buffer chatMemories ++ [querySuffix userQuery]

/-- The `per_part` value of `_apply_token_limit`: the remaining budget after
reserving `prompt_parts[0] + prompt_parts[-1]` (a possibly negative
Python int), floor-divided across the middle parts, at least 1. -/
def perPart (parts : List String) : Int :=
  max (Int.fdiv ((8192 : Int) - (estimateTokens (parts.headD "" ++ parts.getLastD "") : Int))
        ((parts.drop 1).dropLast).length)
    1

/-- The truncated middle parts of `_apply_token_limit`. -/
def truncatedMiddle (parts : List String) : List String :=
  ((parts.drop 1).dropLast).map (fun p => truncateTextToTokens p (perPart parts).toNat)

/-- Embeds `PromptBuilderService._apply_token_limit`. -/
def applyTokenLimit (fullPrompt : String) (parts : List String) : String :=
  if estimateTokens fullPrompt > 8192 then
    if ((parts.drop 1).dropLast).isEmpty then fullPrompt
    else parts.headD "" ++ "\n" ++ joinSep "\n" (truncatedMiddle parts)
      ++ parts.getLastD ""
  else fullPrompt

/-- Embeds `PromptBuilderService._create_memory_prompt`. -/
def createMemoryPrompt (buffer : List Message) (chatMemories : List MemoryItem)
    (userQuery : String) : String :=
  applyTokenLimit (joinSep "\n" (promptParts buffer chatMemories userQuery))
    (promptParts buffer chatMemories userQuery)

/-! ### Retry decorator (`retry_decorator.py`)

The wrapped operation is a function from the attempt index (0-based)
to an `Except` outcome; the embedding returns the final outcome, the
number of attempts performed, and the list of sleep delays in order. -/

structure RetryTrace (E A : Type) where
  result : Except E A
  attempts : Nat
  sleeps : List Nat

/-- The `while True` loop of `retry_on_error`'s `wrapper`, with
`remaining = max_retries - retries` as the structural fuel. -/
def retryLoop (op : Nat → Except E A) (backoffFactor : Nat) :
    (attempt : Nat) → (delay : Nat) → (remaining : Nat) → RetryTrace E A
  | attempt, _, 0 =>
    match op attempt with
    | .ok a => ⟨.ok a, attempt + 1, []⟩
    | .error e => ⟨.error e, attempt + 1, []⟩
  | attempt, delay, r + 1 =>
    match op attempt with
    | .ok a => ⟨.ok a, attempt + 1, []⟩
    | .error _ =>
      let t := retryLoop op backoffFactor (attempt + 1) (delay * backoffFactor) r
      ⟨t.result, t.attempts, delay :: t.sleeps⟩

/-- Embeds `retry_on_error(max_retries, initial_delay, backoff_factor)` applied
to `op`, run once. -/
def retryOnError (op : Nat → Except E A) (maxRetries : Nat)
    (initialDelay : Nat := 1) (backoffFactor : Nat := 2) : RetryTrace E A :=
  retryLoop op backoffFactor 0 initialDelay maxRetries

/-! ### Chat-memory store (`chat_memory_store.py`)

A Weaviate object of the `ChatMemory` collection: the schema
properties (`collection_manager.py`), a uuid, and the stored vector.
A property can be absent on an object (Weaviate null), hence the
`Option Bool` for `is_summarized`, which neither the message-insert
metadata (`vectorization_service.py`) nor the summary metadata
(`summarization_service.py`) provides at insert time. -/

structure ChatMemProps where
  user_id : String
  chat_id : String
  memory_type : String
  content : String
  message_id : String
  sender : String
  created_at : String
  is_summarized : Option Bool := none
deriving DecidableEq, Repr

structure ChatObj where
  uuid : Nat
  props : ChatMemProps
  vec : List Int
deriving DecidableEq, Repr

/-- The multi-tenant `ChatMemory` collection: tenant id ↦ that
tenant's objects, in insertion order. -/
def ChatStore := String → List ChatObj

/-- Embeds `ChatMemoryStore.add_memory`: insert into the caller's tenant.
`newUuid` is the store-generated uuid of the new object. -/
def addMemory (s : ChatStore) (vec : List Int) (props : ChatMemProps)
    (user_id : String) (newUuid : Nat) : ChatStore :=
  fun t => if t = user_id then s user_id ++ [⟨newUuid, props, vec⟩] else s t

/-- One returned item of `search_chat_memories` (`_additional.certainty`,
a float derived as `1 - distance`, is not carried separately). -/
structure SearchResult where
  content : String
  memory_type : String
  user_id : String
  chat_id : String
  message_id : String
  sender : String
  created_at : String
  id : Nat
  distance : Nat
deriving DecidableEq, Repr

/-- The property filter of `search_chat_memories`. -/
def chatSearchFilter (user_id chat_id : String) (o : ChatObj) : Bool :=
  o.props.user_id == user_id && o.props.chat_id == chat_id &&
    (o.props.memory_type == "message" || o.props.memory_type == "summary")

/-- Embeds `ChatMemoryStore.search_chat_memories`: tenant-scoped `near_vector`
with the user/chat/kind filter, ranked by ascending `dist`, `limit`
results. -/
def searchChatMemories (dist : List Int → List Int → Nat) (s : ChatStore)
    (user_id chat_id : String) (queryVector : List Int) (limit : Nat := 5) :
    List SearchResult :=
  let filtered := (s user_id).filter (chatSearchFilter user_id chat_id)
  let ranked := sortLe (fun a b => decide (dist queryVector a.vec ≤ dist queryVector b.vec)) filtered
  (ranked.take limit).map (fun o =>
    { content := o.props.content
      memory_type := o.props.memory_type
      user_id := o.props.user_id
      chat_id := o.props.chat_id
      message_id := o.props.message_id
      sender := o.props.sender
      created_at := o.props.created_at
      id := o.uuid
      distance := dist queryVector o.vec })

/-- The property filter of `get_unsummarized_messages`. -/
def unsummarizedFilter (user_id chat_id : String) (o : ChatObj) : Bool :=
  o.props.user_id == user_id && o.props.chat_id == chat_id &&
    o.props.memory_type == "message" && o.props.is_summarized == some false

/-- Embeds `ChatMemoryStore.get_unsummarized_messages`: tenant-scoped fetch
with the unsummarized-message filter, sorted ascending by
`created_at`, at most `maxCount` objects. -/
def getUnsummarizedMessages (s : ChatStore) (user_id chat_id : String)
    (maxCount : Nat := 100) : List ChatObj :=
  let filtered := (s user_id).filter (unsummarizedFilter user_id chat_id)
  (sortLe (fun a b => strLe a.props.created_at b.props.created_at) filtered).take maxCount

/-- Embeds `ChatMemoryStore.mark_messages_as_summarized`: fetch matching
message objects (limit `len(ids) + 10`), then patch each one's
`is_summarized` to `True`. -/
def markMessagesAsSummarized (s : ChatStore) (user_id chat_id : String)
    (message_ids : List String) : ChatStore :=
  if message_ids.isEmpty then s
  else
    let matched := ((s user_id).filter (fun o =>
        o.props.user_id == user_id && o.props.chat_id == chat_id &&
          o.props.memory_type == "message" &&
          message_ids.contains o.props.message_id)).take (message_ids.length + 10)
    let uuids := matched.map (fun o => o.uuid)
    fun t =>
      if t = user_id then
        (s user_id).map (fun o =>
          if uuids.contains o.uuid then
            { o with props := { o.props with is_summarized := some true } }
          else o)
      else s t

/-! ### Memory-retrieval service (`memory_retrieval_service.py`)

`encode_text` and the remote search can raise; the outcome of the
former is the `encode` parameter applied to the query, the latter's
success is the `searchOk` flag.  The `try/except` of
`search_relevant_memories` maps any failure to `[]`. -/

def searchRelevantMemories (dist : List Int → List Int → Nat) (s : ChatStore)
    (encode : String → Except Unit (List Int)) (searchOk : Bool)
    (user_id chat_id query : String) (chat_limit : Option Nat := none) :
    List SearchResult :=
  let limit := chat_limit.getD 3
  match encode query with
  | .error _ => []
  | .ok queryVector =>
      if searchOk then searchChatMemories dist s user_id chat_id queryVector limit
      else []

/-! ### Summarization service (`summarization_service.py`) -/

/-- Embeds `SummarizationService.memory_summarize_threshold`. -/
def memorySummarizeThreshold : Nat := 20

/-- Embeds `SummarizationService._convert_sender_to_japanese`. -/
def convertSenderToJa (sender : String) : String :=
  if sender == "user" then "User"
  else if sender == "assistant" then "AI"
  else "システム"

/-- The summary metadata dict built by `_save_summary_to_vector_store`
(no `is_summarized` key is provided). -/
def summaryMetadata (summary chat_id user_id now : String) : ChatMemProps :=
  { chat_id := chat_id
    content := summary
    created_at := now
    memory_type := "summary"
    message_id := "summary_" ++ chat_id ++ "_" ++ now
    sender := "system"
    user_id := user_id
    is_summarized := none }

/-- Outcomes of the remote calls made during one summarization pass:
whether the fetch raises, what `_get_llm_summary` returns (`none` on
exception), whether `encode_text` raises and with what vector, whether
the summary insert raises and with what fresh uuid, and whether the
mark-as-summarized call raises. -/
structure PassOracle where
  fetchOk : Bool := true
  llmSummary : Option String := none
  encodeOk : Bool := true
  encodeVec : List Int := []
  insertOk : Bool := true
  newUuid : Nat := 0
  markOk : Bool := true

/-- The `unsummarized_messages` fetched by a pass (`max_count` is the
threshold). -/
def passFetched (s : ChatStore) (user_id chat_id : String) : List ChatObj :=
  getUnsummarizedMessages s user_id chat_id memorySummarizeThreshold

/-- The fetched messages after the service's own chronological sort. -/
def passSorted (s : ChatStore) (user_id chat_id : String) : List ChatObj :=
  sortLe (fun a b => strLe a.props.created_at b.props.created_at)
    (passFetched s user_id chat_id)

/-- The `message_texts` lines concatenated for the model. -/
def passTexts (s : ChatStore) (user_id chat_id : String) : List String :=
  (passSorted s user_id chat_id).map (fun m =>
    convertSenderToJa m.props.sender ++ ": " ++ m.props.content)

/-- The `message_ids` collected for the mark-as-summarized call (empty
ids are skipped). -/
def passIds (s : ChatStore) (user_id chat_id : String) : List String :=
  ((passSorted s user_id chat_id).map (fun m => m.props.message_id)).filter
    (fun i => i ≠ "")

/-- The store after `_save_summary_to_vector_store` succeeds. -/
def passInsert (o : PassOracle) (s : ChatStore) (chat_id user_id now summary : String) :
    ChatStore :=
  addMemory s o.encodeVec (summaryMetadata summary chat_id user_id now)
    user_id o.newUuid

/-- Embeds `SummarizationService._summarize_and_vectorize_background`: the
outer `try/except` makes every failing branch return the store as it
stands at the point of failure. -/
def summarizePass (o : PassOracle) (s : ChatStore) (chat_id user_id now : String) :
    ChatStore :=
  if !o.fetchOk then s
  else if (passFetched s user_id chat_id).length < memorySummarizeThreshold / 2 then s
  else if (passTexts s user_id chat_id).isEmpty then s
  else
    match o.llmSummary with
    | none => s
    | some summary =>
      if summary == "" then s
      else if !o.encodeOk then s
      else if !o.insertOk then s
      else if (passIds s user_id chat_id).isEmpty then
        passInsert o s chat_id user_id now summary
      else if !o.markOk then passInsert o s chat_id user_id now summary
      else markMessagesAsSummarized (passInsert o s chat_id user_id now summary)
        user_id chat_id (passIds s user_id chat_id)

/-- Embeds `SummarizationService.summarize_chat`. -/
def summarizeChat (o : PassOracle) (s : ChatStore) (chat_id user_id : String)
    (message_count : Nat) (now : String) : ChatStore :=
  if message_count > 0 && message_count % memorySummarizeThreshold == 0 then
    summarizePass o s chat_id user_id now
  else s

/-! ### Book-annotation store (`book_annotation_store.py`) -/

structure AnnProps where
  annotation_id : String
  book_id : String
  book_title : String
  content : String
  created_at : String
  notes : String
  user_id : String
deriving DecidableEq, Repr

structure AnnObj where
  uuid : Nat
  props : AnnProps
  vec : List Int
deriving DecidableEq, Repr

/-- The multi-tenant `BookAnnotation` collection. -/
def AnnStore := String → List AnnObj

/-- Result of `update_annotation`: the store afterwards and whether the
not-found warning was logged. -/
structure AnnUpdateOutcome where
  store : AnnStore
  warned : Bool

/-- Embeds `BookAnnotationStore.update_annotation`: tenant-scoped fetch by
`annotation_id`; update the first match in place, or log a warning and
do nothing. -/
def updateAnnotation (s : AnnStore) (user_id annotation_id : String)
    (props : AnnProps) (vec : List Int) : AnnUpdateOutcome :=
  let found := (s user_id).filter (fun o => o.props.annotation_id == annotation_id)
  match found with
  | [] => ⟨s, true⟩
  | m :: _ =>
      ⟨fun t =>
        if t = user_id then
          (s user_id).map (fun o =>
            if o.uuid = m.uuid then { o with props := props, vec := vec } else o)
        else s t,
       false⟩

/-! ### Lemmas about the retry loop -/

/-- If the first `k` attempts from `attempt` fail and attempt
`attempt + k` succeeds, and at least `k` retries remain, the loop
returns the success value after `k + 1` attempts, sleeping the
geometric delays. -/
theorem retryLoop_ok (op : Nat → Except E A) (b : Nat) (v : A) :
    ∀ (k attempt delay remaining : Nat),
      (∀ i, i < k → ∃ e, op (attempt + i) = .error e) →
      op (attempt + k) = .ok v → k ≤ remaining →
      retryLoop op b attempt delay remaining =
        ⟨.ok v, attempt + k + 1, (List.range k).map (fun i => delay * b ^ i)⟩ := by
  intro k
  induction k with
  | zero =>
      intro attempt delay remaining _ hsucc _
      cases remaining with
      | zero => simp only [retryLoop]; rw [Nat.add_zero] at hsucc; rw [hsucc]; rfl
      | succ r => simp only [retryLoop]; rw [Nat.add_zero] at hsucc; rw [hsucc]; rfl
  | succ k ih =>
      intro attempt delay remaining hfail hsucc hle
      obtain ⟨e, he⟩ := hfail 0 (Nat.succ_pos k)
      rw [Nat.add_zero] at he
      cases remaining with
      | zero => exact absurd hle (by omega)
      | succ r =>
          simp only [retryLoop]
          rw [he]
          have hfail' : ∀ i, i < k → ∃ e, op (attempt + 1 + i) = .error e := by
            intro i hi
            have := hfail (i + 1) (by omega)
            rwa [show attempt + (i + 1) = attempt + 1 + i by omega] at this
          have hsucc' : op (attempt + 1 + k) = .ok v := by
            rwa [show attempt + 1 + k = attempt + (k + 1) by omega]
          rw [ih (attempt + 1) (delay * b) r hfail' hsucc' (by omega)]
          simp only [RetryTrace.mk.injEq]
          refine ⟨trivial, by omega, ?_⟩
          rw [List.range_succ_eq_map, List.map_cons, List.map_map]
          simp only [pow_zero, mul_one, List.cons.injEq]
          refine ⟨trivial, ?_⟩
          apply List.map_congr_left
          intro i _
          simp only [Function.comp_apply, Nat.succ_eq_add_one, pow_succ]
          ring

/-- If every attempt from `attempt` through `attempt + remaining`
fails, the loop raises the error of the last attempt after
`remaining + 1` attempts. -/
theorem retryLoop_err (op : Nat → Except E A) (b : Nat) (errs : Nat → E) :
    ∀ (remaining attempt delay : Nat),
      (∀ i, i ≤ remaining → op (attempt + i) = .error (errs (attempt + i))) →
      retryLoop op b attempt delay remaining =
        ⟨.error (errs (attempt + remaining)), attempt + remaining + 1,
         (List.range remaining).map (fun i => delay * b ^ i)⟩ := by
  intro remaining
  induction remaining with
  | zero =>
      intro attempt delay hfail
      have := hfail 0 (Nat.le_refl 0)
      rw [Nat.add_zero] at this
      simp only [retryLoop]
      rw [this]
      rfl
  | succ r ih =>
      intro attempt delay hfail
      have h0 := hfail 0 (Nat.zero_le _)
      rw [Nat.add_zero] at h0
      simp only [retryLoop]
      rw [h0]
      have hfail' : ∀ i, i ≤ r → op (attempt + 1 + i) = .error (errs (attempt + 1 + i)) := by
        intro i hi
        have := hfail (i + 1) (by omega)
        rwa [show attempt + (i + 1) = attempt + 1 + i by omega] at this
      rw [ih (attempt + 1) (delay * b) hfail']
      simp only [RetryTrace.mk.injEq]
      refine ⟨by rw [show attempt + 1 + r = attempt + (r + 1) by omega], by omega, ?_⟩
      rw [List.range_succ_eq_map, List.map_cons, List.map_map]
      simp only [pow_zero, mul_one, List.cons.injEq]
      refine ⟨trivial, ?_⟩
      apply List.map_congr_left
      intro i _
      simp only [Function.comp_apply, Nat.succ_eq_add_one, pow_succ]
      ring

/-! ### C3: retry helper -/

/-- C3: for an operation failing its first `N` attempts and succeeding
on attempt `N`, a wrapper with `maxRetries ≥ N` returns the success
value (after `N + 1` attempts and `N` sleeps); with `maxRetries < N`
it raises the error of the last attempt after exactly `maxRetries + 1`
attempts, and the sleeps start at `initialDelay` and are multiplied by
`backoffFactor` after each failure. -/
theorem retry_on_error_spec (op : Nat → Except E A) (errs : Nat → E) (v : A)
    (N maxRetries initialDelay backoffFactor : Nat)
    (hfail : ∀ i, i < N → op i = .error (errs i)) (hsucc : op N = .ok v) :
    (N ≤ maxRetries →
      retryOnError op maxRetries initialDelay backoffFactor =
        ⟨.ok v, N + 1, (List.range N).map (fun i => initialDelay * backoffFactor ^ i)⟩) ∧
    (maxRetries < N →
      retryOnError op maxRetries initialDelay backoffFactor =
        ⟨.error (errs maxRetries), maxRetries + 1,
         (List.range maxRetries).map (fun i => initialDelay * backoffFactor ^ i)⟩) := by
  constructor
  · intro hle
    unfold retryOnError
    have := retryLoop_ok op backoffFactor v N 0 initialDelay maxRetries
      (fun i hi => ⟨errs i, by simpa using hfail i hi⟩) (by simpa using hsucc) hle
    simpa using this
  · intro hlt
    unfold retryOnError
    have := retryLoop_err op backoffFactor errs maxRetries 0 initialDelay
      (fun i hi => by simpa using hfail i (by omega))
    simpa using this

/-- An operation failing on attempts 0 and 1 and succeeding on 2. -/
def exRetryOp : Nat → Except Nat Nat := fun i => if i < 2 then .error i else .ok 42

theorem retry_on_error_spec_witness :
    (∀ i, i < 2 → exRetryOp i = .error i) ∧ exRetryOp 2 = .ok 42 ∧
    (2 ≤ 3 →
      retryOnError exRetryOp 3 1 2 =
        ⟨.ok 42, 3, (List.range 2).map (fun i => 1 * 2 ^ i)⟩) ∧
    (3 < 2 →
      retryOnError exRetryOp 3 1 2 =
        ⟨.error 3, 4, (List.range 3).map (fun i => 1 * 2 ^ i)⟩) :=
  ⟨by intro i hi; interval_cases i <;> rfl, rfl,
   (retry_on_error_spec exRetryOp (fun i => i) 42 2 3 1 2
      (by intro i hi; interval_cases i <;> rfl) rfl).1,
   (retry_on_error_spec exRetryOp (fun i => i) 42 2 3 1 2
      (by intro i hi; interval_cases i <;> rfl) rfl).2⟩

/-! ### Concrete example data used by witnesses and counterexamples -/

/-- An unsummarized `message`-kind object of tenant `alice`, chat `c1`. -/
def exMsgObj (i : Nat) : ChatObj :=
  ⟨i, ⟨"alice", "c1", "message", "hello " ++ toString i, "m" ++ toString i,
      "user", "2024-01-01T00:0" ++ toString i, some false⟩, [(i : Int)]⟩

/-- A store whose tenant `alice` holds ten unsummarized messages. -/
def exStore : ChatStore :=
  fun t => if t = "alice" then (List.range 10).map exMsgObj else []

/-- A store whose tenant `alice` holds three unsummarized messages. -/
def exSmallStore : ChatStore :=
  fun t => if t = "alice" then (List.range 3).map exMsgObj else []

/-- An oracle under which every remote call of a summarization pass
succeeds and the model returns the summary `"S"`. -/
def exOracle : PassOracle := { llmSummary := some "S", newUuid := 100 }

/-! ### C9: annotation update with an unknown key -/

/-- C9: for every tenant and every `annotation_id` matching no record in
that tenant's annotation collection, `update_annotation` performs no
write, raises no error, leaves the store unchanged, and logs the
not-found warning. -/
theorem update_annotation_unknown_key_noop (s : AnnStore)
    (user_id annotation_id : String) (props : AnnProps) (vec : List Int)
    (h : ∀ o ∈ s user_id, o.props.annotation_id ≠ annotation_id) :
    updateAnnotation s user_id annotation_id props vec = ⟨s, true⟩ := by
  have hf : (s user_id).filter (fun o => o.props.annotation_id == annotation_id) = [] := by
    rw [List.filter_eq_nil_iff]
    intro o ho
    simpa using h o ho
  unfold updateAnnotation
  rw [hf]

def exAnnObj : AnnObj :=
  ⟨1, ⟨"a1", "b1", "Title", "highlight", "2024-01-01", "note", "alice"⟩, [1]⟩

def exAnnStore : AnnStore := fun t => if t = "alice" then [exAnnObj] else []

def exAnnProps : AnnProps := ⟨"zzz", "b1", "Title", "new", "2024-01-02", "", "alice"⟩

theorem update_annotation_unknown_key_noop_witness :
    (∀ o ∈ exAnnStore "alice", o.props.annotation_id ≠ "zzz") ∧
    updateAnnotation exAnnStore "alice" "zzz" exAnnProps [0] = ⟨exAnnStore, true⟩ :=
  ⟨by decide, update_annotation_unknown_key_noop exAnnStore "alice" "zzz" exAnnProps [0]
    (by decide)⟩

/-! ### C7: minimum-batch abort of a summarization pass -/

/-- C7: when the store returns fewer than `threshold / 2` unsummarized
message-kind records for the conversation (fewer than 10 with the
default threshold 20), the pass aborts: no summary is inserted, no
message is marked, the store is unchanged. -/
theorem summarize_pass_small_batch_aborts (o : PassOracle) (s : ChatStore)
    (chat_id user_id now : String)
    (h : (getUnsummarizedMessages s user_id chat_id memorySummarizeThreshold).length
          < memorySummarizeThreshold / 2) :
    summarizePass o s chat_id user_id now = s := by
  have h' : (passFetched s user_id chat_id).length < memorySummarizeThreshold / 2 := h
  unfold summarizePass
  split <;> rfl

theorem summarize_pass_small_batch_aborts_witness :
    (getUnsummarizedMessages exSmallStore "alice" "c1" memorySummarizeThreshold).length
        < memorySummarizeThreshold / 2 ∧
    summarizePass exOracle exSmallStore "c1" "alice" "2024-02-02T00:00:00Z" = exSmallStore :=
  ⟨by decide, summarize_pass_small_batch_aborts exOracle exSmallStore "c1" "alice"
    "2024-02-02T00:00:00Z" (by decide)⟩

/-! ### C8: retrieval degrades to the empty list -/

/-- C8: if vectorizing the query or searching the store fails,
`search_relevant_memories` returns `[]` instead of propagating; on
success it returns the ranked chat-memory search results with the
default limit 3 when no limit is supplied. -/
theorem search_relevant_memories_spec (dist : List Int → List Int → Nat)
    (s : ChatStore) (encode : String → Except Unit (List Int)) (searchOk : Bool)
    (user_id chat_id query : String) :
    (encode query = .error () ∨ searchOk = false →
      searchRelevantMemories dist s encode searchOk user_id chat_id query = []) ∧
    (∀ qv, encode query = .ok qv → searchOk = true →
      searchRelevantMemories dist s encode searchOk user_id chat_id query
        = searchChatMemories dist s user_id chat_id qv 3) := by
  constructor
  · rintro (h | h) <;> unfold searchRelevantMemories
    · rw [h]
    · cases henc : encode query <;> simp [h]
  · intro qv h hs
    unfold searchRelevantMemories
    rw [h, hs]
    rfl

theorem search_relevant_memories_spec_witness :
    ((fun _ : String => (Except.error () : Except Unit (List Int))) "q" = .error () ∨
      true = false) ∧
    searchRelevantMemories (fun _ _ => 0) exStore
      (fun _ => .error ()) true "alice" "c1" "q" = [] :=
  ⟨Or.inl rfl,
   (search_relevant_memories_spec (fun _ _ => 0) exStore (fun _ => .error ()) true
      "alice" "c1" "q").1 (Or.inl rfl)⟩

/-! ### C4: summarization trigger -/

/-- C4 counterexample: at `message_count = 0` the remainder is 0, yet
`summarize_chat` performs no pass (the code requires
`message_count > 0` as well), although a pass at that store would have
changed it. -/
theorem summarize_trigger_zero_cex :
    (0 : Nat) % memorySummarizeThreshold = 0 ∧
    summarizeChat exOracle exStore "c1" "alice" 0 "2024-02-02T00:00:00Z" "alice"
      = exStore "alice" ∧
    summarizePass exOracle exStore "c1" "alice" "2024-02-02T00:00:00Z" "alice"
      ≠ exStore "alice" := by
  refine ⟨rfl, rfl, ?_⟩
  decide

/-- C4 (amended): for every message count, `summarize_chat` starts a
summarization pass exactly when `message_count > 0` and
`message_count % threshold == 0` (threshold 20); for every other
count — `message_count = 0` included — the store is untouched. -/
theorem summarize_chat_trigger (o : PassOracle) (s : ChatStore)
    (chat_id user_id now : String) (message_count : Nat) :
    summarizeChat o s chat_id user_id message_count now
      = if 0 < message_count ∧ message_count % memorySummarizeThreshold = 0
        then summarizePass o s chat_id user_id now
        else s := by
  by_cases h1 : 0 < message_count <;>
    by_cases h2 : message_count % memorySummarizeThreshold = 0 <;>
      simp [summarizeChat, h1, h2]

/-! ### C1: tenant isolation of the chat-memory collection -/

/-- The search `search_chat_memories` reads only the queried tenant's partition. -/
theorem searchChatMemories_congr (dist : List Int → List Int → Nat)
    (s s' : ChatStore) (user_id chat_id : String) (qv : List Int) (limit : Nat)
    (h : s' user_id = s user_id) :
    searchChatMemories dist s' user_id chat_id qv limit
      = searchChatMemories dist s user_id chat_id qv limit := by
  unfold searchChatMemories
  rw [h]

/-- Every search result's id is the uuid of an object stored in the
queried tenant's partition. -/
theorem searchChatMemories_id_mem (dist : List Int → List Int → Nat)
    (s : ChatStore) (user_id chat_id : String) (qv : List Int) (limit : Nat)
    (r : SearchResult) (h : r ∈ searchChatMemories dist s user_id chat_id qv limit) :
    ∃ o ∈ s user_id, o.uuid = r.id := by
  unfold searchChatMemories at h
  simp only [List.mem_map] at h
  obtain ⟨o, ho, rfl⟩ := h
  have h1 := List.mem_of_mem_take ho
  rw [mem_sortLe] at h1
  exact ⟨o, List.mem_of_mem_filter h1, rfl⟩

/-- C1: a record inserted for tenant `t1` via `add_memory` is never
returned by `search_chat_memories` scoped to a different tenant `t2`,
whatever the conversation filter, query vector and limit: the search
is unchanged by the insert, and the new record's id never appears
among the results (given its uuid is fresh for `t2`). -/
theorem tenant_isolation (dist : List Int → List Int → Nat) (s : ChatStore)
    (t1 t2 : String) (vec : List Int) (props : ChatMemProps) (newUuid : Nat)
    (chat_id : String) (qv : List Int) (limit : Nat)
    (hne : t1 ≠ t2) (hfresh : ∀ o ∈ s t2, o.uuid ≠ newUuid) :
    searchChatMemories dist (addMemory s vec props t1 newUuid) t2 chat_id qv limit
      = searchChatMemories dist s t2 chat_id qv limit ∧
    newUuid ∉ (searchChatMemories dist (addMemory s vec props t1 newUuid)
        t2 chat_id qv limit).map (fun r => r.id) := by
  have hpart : (addMemory s vec props t1 newUuid) t2 = s t2 := by
    unfold addMemory
    rw [if_neg (fun h => hne h.symm)]
  have heq := searchChatMemories_congr dist s (addMemory s vec props t1 newUuid)
    t2 chat_id qv limit hpart
  refine ⟨heq, ?_⟩
  rw [heq]
  intro hmem
  simp only [List.mem_map] at hmem
  obtain ⟨r, hr, hid⟩ := hmem
  obtain ⟨o, ho, huuid⟩ := searchChatMemories_id_mem dist s t2 chat_id qv limit r hr
  exact hfresh o ho (huuid.trans hid)

/-- A chat-memory object stored for tenant `bob`. -/
def exBobObj : ChatObj :=
  ⟨7, ⟨"bob", "c1", "message", "bob text", "mb", "user",
      "2024-01-01T00:00", some false⟩, [5]⟩

/-- A two-tenant store: `alice` and `bob` each hold one record. -/
def exTwoTenantStore : ChatStore :=
  fun t =>
    if t = "alice" then [exMsgObj 0]
    else if t = "bob" then [exBobObj] else []

theorem tenant_isolation_witness :
    ("alice" ≠ "bob" ∧ ∀ o ∈ exTwoTenantStore "bob", o.uuid ≠ 99) ∧
    (searchChatMemories (fun _ _ => 0)
        (addMemory exTwoTenantStore [1] (exMsgObj 3).props "alice" 99) "bob" "c1" [1] 5
      = searchChatMemories (fun _ _ => 0) exTwoTenantStore "bob" "c1" [1] 5 ∧
    99 ∉ (searchChatMemories (fun _ _ => 0)
        (addMemory exTwoTenantStore [1] (exMsgObj 3).props "alice" 99)
        "bob" "c1" [1] 5).map (fun r => r.id)) :=
  ⟨⟨by decide, by decide⟩,
   tenant_isolation (fun _ _ => 0) exTwoTenantStore "alice" "bob" [1]
     (exMsgObj 3).props 99 "c1" [1] 5 (by decide) (by decide)⟩

/-! ### C6: summarization write ordering -/

/-- The store inserted by a successful summary insert. -/
def summaryObj (o : PassOracle) (summary chat_id user_id now : String) : ChatObj :=
  ⟨o.newUuid, summaryMetadata summary chat_id user_id now, o.encodeVec⟩

/-- Case analysis of one summarization pass: either nothing was
written, or the summary insert succeeded and the result is the store
with the summary added, possibly with the source messages marked
afterwards. -/
theorem summarizePass_result (o : PassOracle) (s : ChatStore)
    (chat_id user_id now : String) :
    summarizePass o s chat_id user_id now = s ∨
    (o.fetchOk = true ∧ o.encodeOk = true ∧ o.insertOk = true ∧
     ∃ summary, o.llmSummary = some summary ∧ summary ≠ "" ∧
      (summarizePass o s chat_id user_id now
          = passInsert o s chat_id user_id now summary ∨
       ∃ ids, ids ≠ [] ∧
         summarizePass o s chat_id user_id now
           = markMessagesAsSummarized (passInsert o s chat_id user_id now summary)
               user_id chat_id ids)) := by
  unfold summarizePass
  split
  · exact Or.inl rfl
  next hfetch =>
    split
    · exact Or.inl rfl
    next hlen =>
      split
      · exact Or.inl rfl
      next htexts =>
        split
        · exact Or.inl rfl
        next summary hsome =>
          split
          · exact Or.inl rfl
          next hsum =>
            split
            · exact Or.inl rfl
            next henc =>
              split
              · exact Or.inl rfl
              next hins =>
                refine Or.inr ⟨?_, ?_, ?_, summary, ?_, ?_, ?_⟩
                · simpa using hfetch
                · simpa using henc
                · simpa using hins
                · exact hsome
                · simpa using hsum
                · split
                  · exact Or.inl rfl
                  next hids =>
                    split
                    · exact Or.inl rfl
                    next hmark =>
                      refine Or.inr ⟨passIds s user_id chat_id, ?_, rfl⟩
                      intro hnil
                      rw [hnil] at hids
                      simp at hids

/-- Inserting via `add_memory` leaves other tenants untouched. -/
theorem addMemory_apply_ne (s : ChatStore) (vec : List Int) (props : ChatMemProps)
    (user_id : String) (newUuid : Nat) (t : String) (ht : t ≠ user_id) :
    addMemory s vec props user_id newUuid t = s t := by
  unfold addMemory
  rw [if_neg ht]

/-- Inserting via `add_memory` appends the new object to the caller's tenant. -/
theorem addMemory_apply_eq (s : ChatStore) (vec : List Int) (props : ChatMemProps)
    (user_id : String) (newUuid : Nat) :
    addMemory s vec props user_id newUuid user_id
      = s user_id ++ [⟨newUuid, props, vec⟩] := by
  unfold addMemory
  rw [if_pos rfl]

/-- Marking via `mark_messages_as_summarized` leaves other tenants untouched. -/
theorem markMessages_apply_ne (s : ChatStore) (user_id chat_id : String)
    (ids : List String) (t : String) (ht : t ≠ user_id) :
    markMessagesAsSummarized s user_id chat_id ids t = s t := by
  unfold markMessagesAsSummarized
  split
  · rfl
  · exact if_neg ht

/-- C6: in a summarization pass, source messages are marked
`summarized` only after the summary insert has succeeded: any failure
of the fetch, of summary generation (including an empty model reply),
of vectorization, or of the summary insert leaves the store exactly as
it was (no message marked, backlog intact); and in every outcome, any
object whose `is_summarized` flag was not already set in the original
store can only be marked in the result if the new summary record is
present in the result. -/
theorem summarization_write_ordering (o : PassOracle) (s : ChatStore)
    (chat_id user_id now : String) :
    ((o.fetchOk = false ∨ o.llmSummary = none ∨ o.llmSummary = some "" ∨
        o.encodeOk = false ∨ o.insertOk = false) →
      summarizePass o s chat_id user_id now = s) ∧
    (∀ t, ∀ obj ∈ summarizePass o s chat_id user_id now t,
      obj.props.is_summarized = some true →
      (∃ o0 ∈ s t, o0.uuid = obj.uuid ∧ o0.props.is_summarized = some true) ∨
      (∃ so ∈ summarizePass o s chat_id user_id now t,
        so.uuid = o.newUuid ∧ so.props.memory_type = "summary" ∧
          so.props.user_id = user_id)) := by
  constructor
  · intro h
    rcases summarizePass_result o s chat_id user_id now with hres |
      ⟨hf, he, hi, summary, hsome, hne, _⟩
    · exact hres
    · rcases h with h | h | h | h | h
      · rw [hf] at h; cases h
      · rw [hsome] at h; cases h
      · rw [hsome] at h
        exact absurd (Option.some.inj h) hne
      · rw [he] at h; cases h
      · rw [hi] at h; cases h
  · intro t obj hobj hmark
    rcases summarizePass_result o s chat_id user_id now with hres |
      ⟨_, _, _, summary, _, _, hres | ⟨ids, hids, hres⟩⟩
    · rw [hres] at hobj
      exact Or.inl ⟨obj, hobj, rfl, hmark⟩
    · by_cases ht : t = user_id
      · subst ht
        right
        rw [hres, passInsert, addMemory_apply_eq]
        exact ⟨⟨o.newUuid, summaryMetadata summary chat_id t now, o.encodeVec⟩,
          List.mem_append_right _ (List.mem_singleton.mpr rfl), rfl, rfl, rfl⟩
      · left
        rw [hres, passInsert, addMemory_apply_ne _ _ _ _ _ _ ht] at hobj
        exact ⟨obj, hobj, rfl, hmark⟩
    · by_cases ht : t = user_id
      · subst ht
        right
        rw [hres]
        have hmem : summaryObj o summary chat_id t now
            ∈ passInsert o s chat_id t now summary t := by
          rw [passInsert, addMemory_apply_eq]
          exact List.mem_append_right _ (List.mem_singleton.mpr rfl)
        have hnotempty : ids.isEmpty = false := by
          cases hi : ids.isEmpty
          · rfl
          · exact absurd (List.isEmpty_iff.mp hi) hids
        unfold markMessagesAsSummarized
        rw [hnotempty]
        simp only [Bool.false_eq_true, if_false, if_pos rfl]
        refine ⟨_, List.mem_map_of_mem _ hmem, ?_⟩
        split <;> exact ⟨rfl, rfl, rfl⟩
      · left
        rw [hres, markMessages_apply_ne _ _ _ _ _ ht,
          passInsert, addMemory_apply_ne _ _ _ _ _ _ ht] at hobj
        exact ⟨obj, hobj, rfl, hmark⟩

/-- An oracle whose summary insert fails. -/
def exFailOracle : PassOracle := { llmSummary := some "S", insertOk := false }

theorem summarization_write_ordering_witness :
    (exFailOracle.fetchOk = false ∨ exFailOracle.llmSummary = none ∨
      exFailOracle.llmSummary = some "" ∨ exFailOracle.encodeOk = false ∨
      exFailOracle.insertOk = false) ∧
    summarizePass exFailOracle exStore "c1" "alice" "2024-02-02T00:00:00Z" = exStore :=
  ⟨Or.inr (Or.inr (Or.inr (Or.inr rfl))),
   (summarization_write_ordering exFailOracle exStore "c1" "alice"
      "2024-02-02T00:00:00Z").1 (Or.inr (Or.inr (Or.inr (Or.inr rfl))))⟩

/-! ### Structure lemmas for the prompt builder -/

theorem joinSep_pfx (sep x : String) (l : List String) :
    ∃ t, joinSep sep (x :: l) = x ++ t := by
  cases l with
  | nil => exact ⟨"", (String.append_empty x).symm⟩
  | cons y ys =>
      exact ⟨sep ++ joinSep sep (y :: ys), String.append_assoc x sep (joinSep sep (y :: ys))⟩

theorem joinSep_sfx (sep : String) : ∀ (l : List String) (x : String),
    ∃ u, joinSep sep (l ++ [x]) = u ++ x := by
  intro l
  induction l with
  | nil => intro x; exact ⟨"", (String.empty_append x).symm⟩
  | cons a l ih =>
      intro x
      cases l with
      | nil => exact ⟨a ++ sep, rfl⟩
      | cons b l' =>
          obtain ⟨u, hu⟩ := ih x
          refine ⟨a ++ sep ++ u, ?_⟩
          show a ++ sep ++ joinSep sep ((b :: l') ++ [x]) = a ++ sep ++ u ++ x
          rw [hu, String.append_assoc (a ++ sep) u x]

theorem promptParts_eq (buffer : List Message) (mems : List MemoryItem) (q : String) :
    promptParts buffer mems q
      = systemPrompt :: (middleBlocks buffer mems ++ [querySuffix q]) := rfl

theorem promptParts_headD (buffer : List Message) (mems : List MemoryItem) (q : String) :
    (promptParts buffer mems q).headD "" = systemPrompt := rfl

theorem promptParts_getLastD (buffer : List Message) (mems : List MemoryItem) (q : String) :
    (promptParts buffer mems q).getLastD "" = querySuffix q := by
  rw [promptParts_eq, ← List.cons_append]
  exact List.getLastD_concat _ _ _

theorem promptParts_middle (buffer : List Message) (mems : List MemoryItem) (q : String) :
    ((promptParts buffer mems q).drop 1).dropLast = middleBlocks buffer mems := by
  rw [promptParts_eq]
  show (middleBlocks buffer mems ++ [querySuffix q]).dropLast = middleBlocks buffer mems
  exact List.dropLast_concat ..

/-! ### C2: prompt-builder token budget -/

/-- C2 (amended): if the token estimate of the composed concatenation
is within the 8192 budget, the returned prompt is exactly that
concatenation; in every case (over budget included) the returned
prompt carries the system-instruction block verbatim as its prefix and
the trailing user-query suffix verbatim as its suffix.  (The original
claim's bound `estimate(result) ≤ budget` in the over-budget case is
refuted by `prompt_over_budget_cex`.) -/
theorem prompt_builder_budget (buffer : List Message) (mems : List MemoryItem)
    (q : String) :
    (estimateTokens (joinSep "\n" (promptParts buffer mems q)) ≤ 8192 →
      createMemoryPrompt buffer mems q = joinSep "\n" (promptParts buffer mems q)) ∧
    (∃ t, createMemoryPrompt buffer mems q = systemPrompt ++ t) ∧
    (∃ u, createMemoryPrompt buffer mems q = u ++ querySuffix q) := by
  have hfull : ∀ h : String × String,
      (∃ t, joinSep "\n" (promptParts buffer mems q) = systemPrompt ++ t) ∧
      (∃ u, joinSep "\n" (promptParts buffer mems q) = u ++ querySuffix q) := by
    intro _
    constructor
    · rw [promptParts_eq]
      exact joinSep_pfx "\n" systemPrompt _
    · rw [promptParts_eq, ← List.cons_append]
      exact joinSep_sfx "\n" _ _
  obtain ⟨⟨t0, ht0⟩, ⟨u0, hu0⟩⟩ := hfull ("", "")
  unfold createMemoryPrompt applyTokenLimit
  by_cases hover : estimateTokens (joinSep "\n" (promptParts buffer mems q)) > 8192
  · rw [if_pos hover]
    by_cases hmid : ((promptParts buffer mems q).drop 1).dropLast.isEmpty
    · rw [if_pos hmid]
      exact ⟨fun hle => absurd hover (Nat.not_lt.mpr hle), ⟨t0, ht0⟩, ⟨u0, hu0⟩⟩
    · rw [if_neg hmid]
      refine ⟨fun hle => absurd hover (Nat.not_lt.mpr hle), ?_, ?_⟩
      · rw [promptParts_headD]
        refine ⟨"\n" ++ (joinSep "\n" (truncatedMiddle (promptParts buffer mems q))
          ++ (promptParts buffer mems q).getLastD ""), ?_⟩
        rw [← String.append_assoc, ← String.append_assoc]
      · rw [promptParts_getLastD]
        exact ⟨_, rfl⟩
  · rw [if_neg hover]
    exact ⟨fun _ => rfl, ⟨t0, ht0⟩, ⟨u0, hu0⟩⟩

set_option maxRecDepth 8192 in
theorem prompt_builder_budget_witness :
    estimateTokens (joinSep "\n" (promptParts [] [] "hi")) ≤ 8192 ∧
    createMemoryPrompt [] [] "hi" = joinSep "\n" (promptParts [] [] "hi") :=
  ⟨by decide, (prompt_builder_budget [] [] "hi").1 (by decide)⟩

/-- A 40000-character user query. -/
def bigQuery : String := String.mk (List.replicate 40000 'a')

/-- C2 counterexample: with an empty buffer, no retrieved memories and
a 40000-character query, the composed concatenation is over budget,
yet the returned prompt is that very concatenation, whose token
estimate still exceeds the budget — refuting "if the estimate exceeds
the budget then the returned prompt's token estimate is ≤ the
budget". -/
theorem prompt_over_budget_cex :
    8192 < estimateTokens (joinSep "\n" (promptParts [] [] bigQuery)) ∧
    createMemoryPrompt [] [] bigQuery = joinSep "\n" (promptParts [] [] bigQuery) ∧
    8192 < estimateTokens (createMemoryPrompt [] [] bigQuery) := by
  have hq : bigQuery.length = 40000 := by
    show (List.replicate 40000 'a').length = 40000
    exact List.length_replicate 40000 'a'
  have hql : (querySuffix bigQuery).length = 40011 := by
    show ("\nUser: " ++ bigQuery ++ "\nAI:").length = 40011
    rw [String.length_append, String.length_append, hq]
    decide
  have hjoin : joinSep "\n" (promptParts [] [] bigQuery)
      = systemPrompt ++ "\n" ++ querySuffix bigQuery := rfl
  have hlen : (systemPrompt ++ "\n" ++ querySuffix bigQuery).length
      = systemPrompt.length + 1 + 40011 := by
    rw [String.length_append, String.length_append, hql,
      show ("\n" : String).length = 1 from rfl]
  have hest : 8192 < estimateTokens (joinSep "\n" (promptParts [] [] bigQuery)) := by
    rw [hjoin, estimateTokens_eq, hlen]
    omega
  have hmid : ((promptParts [] [] bigQuery).drop 1).dropLast.isEmpty = true := rfl
  have hres : createMemoryPrompt [] [] bigQuery
      = joinSep "\n" (promptParts [] [] bigQuery) := by
    unfold createMemoryPrompt applyTokenLimit
    rw [if_pos hest, if_pos hmid]
  exact ⟨hest, hres, hres ▸ hest⟩

/-! ### C5: order of the recent-chat-history block -/

/-- The older message of a two-element ascending buffer. -/
def msgOld : Message :=
  { content := "first", sender_type := "user", chat_id := "c1",
    sender_id := "alice", created_at := 1 }

/-- The newer message of a two-element ascending buffer. -/
def msgNew : Message :=
  { content := "second", sender_type := "assistant", chat_id := "c1",
    sender_id := "alice", created_at := 2 }

set_option maxRecDepth 8192 in
/-- C5 evidence: for a buffer already sorted ascending by creation
time (as `get_latest_messages` returns it), the recent-chat-history
block lines come out newest-first — `reversed(buffer)` flips the
ascending buffer — contradicting the block's own "(Oldest First)"
heading and the claim. -/
theorem recent_history_newest_first_bug :
    msgOld.created_at < msgNew.created_at ∧
    historyItems [msgOld, msgNew] = ["AI: second", "User: first"] ∧
    historyItems [msgOld, msgNew] ≠ [messageLine msgOld, messageLine msgNew] ∧
    createMemoryPrompt [msgOld, msgNew] [] "q"
      = joinSep "\n" [systemPrompt,
          historyHeading ++ joinSep "\n" ["AI: second", "User: first"],
          querySuffix "q"] := by
  refine ⟨by decide, by decide, by decide, by decide⟩

/-! ### C10: deleted messages are excluded from the history block -/

/-- C10: the recent-chat-history block has one line per non-deleted
message of the buffer (deleted ones are excluded), and a non-empty
buffer consisting solely of deleted messages still contributes the
bare (empty-bodied) recent-history heading to the prompt parts while
contributing no message line. -/
theorem deleted_messages_excluded (buffer : List Message) (mems : List MemoryItem)
    (q : String) :
    (historyItems buffer).length = (buffer.filter (fun m => !m.is_deleted)).length ∧
    (∀ line ∈ historyItems buffer, ∃ m ∈ buffer,
      m.is_deleted = false ∧ line = messageLine m) ∧
    (buffer ≠ [] → (∀ m ∈ buffer, m.is_deleted = true) →
      historyItems buffer = [] ∧ historyHeading ∈ promptParts buffer mems q) := by
  refine ⟨?_, ?_, ?_⟩
  · unfold historyItems
    rw [List.length_map, List.filter_reverse, List.length_reverse]
  · intro line hline
    unfold historyItems at hline
    simp only [List.mem_map, List.mem_filter, List.mem_reverse] at hline
    obtain ⟨m, ⟨hm, hdel⟩, rfl⟩ := hline
    exact ⟨m, hm, by simpa using hdel, rfl⟩
  · intro hne hdel
    have hfilter : (buffer.reverse.filter (fun m => !m.is_deleted)) = [] := by
      rw [List.filter_eq_nil_iff]
      intro m hm
      rw [List.mem_reverse] at hm
      simp [hdel m hm]
    have hhist : historyItems buffer = [] := by
      unfold historyItems
      rw [hfilter, List.map_nil]
    refine ⟨hhist, ?_⟩
    have hbuf : buffer.isEmpty = false := by
      cases hb : buffer.isEmpty
      · rfl
      · exact absurd (List.isEmpty_iff.mp hb) hne
    unfold promptParts middleBlocks
    rw [hbuf, hhist]
    have hh : historyHeading ++ joinSep "\n" [] = historyHeading := by
      show historyHeading ++ "" = historyHeading
      exact String.append_empty _
    rw [hh]
    simp

/-- A deleted message. -/
def msgDel : Message :=
  { content := "bye", sender_type := "user", chat_id := "c1",
    sender_id := "alice", created_at := 3, deleted_at := some 4 }

theorem deleted_messages_excluded_witness :
    ([msgDel] ≠ ([] : List Message) ∧ ∀ m ∈ [msgDel], m.is_deleted = true) ∧
    (historyItems [msgDel] = [] ∧ historyHeading ∈ promptParts [msgDel] [] "q") :=
  ⟨⟨by decide, by decide⟩,
   (deleted_messages_excluded [msgDel] [] "q").2.2 (by decide) (by decide)⟩

end BookWith
